import Mathlib

/-!
# A verification development for the `rustsbi/plic` RISC-V PLIC driver

This file shallowly embeds the driver in `src/plic/src/lib.rs` (the
const-generic `Plic<P, B>` variant, which the specification treats as
canonical) together with the trap handler generated by
`gen_once_trap_handler` in `src/plic-rt/src/lib.rs`, and proves or refutes
the specification's claims about them.

Modelling conventions:

* Machine integers (`u16`, `u32`, `usize`) are modelled as `Nat`.  A value
  read from or written to a 32-bit register is a `Nat`; where the Rust code
  relies on the width of the type (the `u32` complement `!x`, the range
  checks of `TryFrom`), the width appears explicitly (`4294967295 ^^^ x`,
  bounds `< 65536`).
* The memory-mapped `RegisterBlock` (`src/plic/src/plic.rs`) is modelled as
  a record of total maps from register indices to the 32-bit value the
  register currently holds.  The Rust arrays have fixed extents
  (`priority[1024]`, `pending[128]`, `enables[15872].enable[32]`,
  `contexts[15872]`) and indexing outside them bound-checks; every theorem
  below restricts its indices to those extents, where the total-map model
  and the Rust code agree.
* Rust panics (`panic!` in `Priority::from_bits`, `Option::unwrap` in the
  generated trap handler) are modelled as `Except.error`; fallible
  conversions (`TryFrom`) as `Option`.
-/

/-! ## Interrupt number `Nr` (src/plic/src/lib.rs, lines 124-185)

`Nr` wraps a `NonZeroU16`, so the representation invariant carried by the
type itself is `1 ≤ val < 2^16`.  (The doc comment on the Rust type states
"Valid number range are from 1..=1023", but no constructor enforces the
upper bound 1023; see the theorems below.) -/
structure Nr where
  val : Nat
  pos : 0 < val
  lt : val < 65536

/-- `Nr::index`: the wrapped number, as in `self.0.into()`. -/
def Nr.index (n : Nr) : Nat := n.val

/-- `impl TryFrom<u16> for Nr`: the only failure is the `NonZeroU16`
conversion, which rejects exactly `0`.  The argument `h` is the domain
constraint of the Rust parameter type `u16`. -/
def Nr.tryFromU16 (src : Nat) (h : src < 65536) : Option Nr :=
  if hp : 0 < src then some ⟨src, hp, h⟩ else none

/-- `impl TryFrom<u32> for Nr`: first `u32 → u16` (fails when the value
does not fit in 16 bits), then `u16 → NonZeroU16` (fails on `0`). -/
def Nr.tryFromU32 (src : Nat) : Option Nr :=
  if h : src < 65536 then
    if hp : 0 < src then some ⟨src, hp, h⟩ else none
  else none

/-- `impl TryFrom<usize> for Nr`: same two-step conversion as from `u32`. -/
def Nr.tryFromUsize (src : Nat) : Option Nr :=
  if h : src < 65536 then
    if hp : 0 < src then some ⟨src, hp, h⟩ else none
  else none

/-- `impl From<Nr> for u16`. -/
def Nr.toU16 (n : Nr) : Nat := n.val

/-- `impl From<Nr> for u32` (goes through the `u16` conversion). -/
def Nr.toU32 (n : Nr) : Nat := n.toU16

/-- `impl From<Nr> for usize` (goes through the `u16` conversion). -/
def Nr.toUsize (n : Nr) : Nat := n.toU16

/-! ## Priority (src/plic/src/lib.rs, lines 187-234) -/

/-- `Priority<const B: usize>`: a `u32` register value tagged with the
priority bit width `B` of the instantiation. -/
structure Priority (B : Nat) where
  bits : Nat

/-- `Priority::never`. -/
def Priority.never (B : Nat) : Priority B := ⟨0⟩

/-- `Priority::lowest`. -/
def Priority.lowest (B : Nat) : Priority B := ⟨1⟩

/-- `Priority::highest`: `u32::MAX` when `B == 32`, otherwise the Rust
expression `(2 << B) - 1` (note: `2 <<< B` is `2^(B+1)`, not `2^B`). -/
def Priority.highest (B : Nat) : Priority B :=
  if B = 32 then ⟨4294967295⟩ else ⟨(2 <<< B) - 1⟩

/-- `Priority::into_bits`. -/
def Priority.into_bits {B : Nat} (p : Priority B) : Nat := p.bits

/-- `Priority::from_bits`: always legal for `B == 32`; otherwise accepts
exactly the raw values with `prio < (2 << B)` and panics (modelled as
`Except.error`) on the rest. -/
def Priority.from_bits (B : Nat) (prio : Nat) : Except String (Priority B) :=
  if B = 32 then Except.ok ⟨prio⟩
  else if prio < 2 <<< B then Except.ok ⟨prio⟩
  else Except.error "invalid priority"

/-! ## Register state and the driver operations
(src/plic/src/lib.rs, lines 26-122; layout in src/plic/src/plic.rs) -/

/-- The controller's register state: each field maps a register index to
the 32-bit value the register holds.  `enables c w` is the word
`enables[c].enable[w]`; `threshold c` and `claimReg c` are the two words of
`contexts[c]`.  A read of the claim register returns `claimReg c`; the
hardware side effects of that read (clearing the pending bit, closing the
claim gateway) are controller behaviour, not driver code, and are modelled
separately by `SimPlic` below. -/
structure PlicState where
  priority : Nat → Nat
  pending : Nat → Nat
  enables : Nat → Nat → Nat
  threshold : Nat → Nat
  claimReg : Nat → Nat

/-- Pointwise update of a one-index register file. -/
def updNat (f : Nat → Nat) (i v : Nat) : Nat → Nat :=
  fun j => if j = i then v else f j

/-- Pointwise update of a two-index register file. -/
def updNat2 (f : Nat → Nat → Nat) (i j v : Nat) : Nat → Nat → Nat :=
  fun a b => if a = i ∧ b = j then v else f a b

/-- `Plic::is_enabled`: read the enable word `irq / 32` of the context and
test bit `irq % 32`. -/
def Plic.is_enabled (s : PlicState) (context : Nat) (interrupt : Nr) : Bool :=
  let irq := interrupt.index
  (s.enables context (irq / 32) &&& (1 <<< (irq % 32))) != 0

/-- `Plic::unmask`: read-modify-write `v | 1 << (irq % 32)` on the enable
word `irq / 32` of the context. -/
def Plic.unmask (s : PlicState) (context : Nat) (interrupt : Nr) : PlicState :=
  let irq := interrupt.index
  let v := s.enables context (irq / 32) ||| (1 <<< (irq % 32))
  { s with enables := updNat2 s.enables context (irq / 32) v }

/-- `Plic::mask`: read-modify-write `v & !(1 << (irq % 32))` on the enable
word; the `u32` complement `!x` is `4294967295 ^^^ x`. -/
def Plic.mask (s : PlicState) (context : Nat) (interrupt : Nr) : PlicState :=
  let irq := interrupt.index
  let v := s.enables context (irq / 32) &&& (4294967295 ^^^ (1 <<< (irq % 32)))
  { s with enables := updNat2 s.enables context (irq / 32) v }

/-- `Plic::get_priority`: read `priority[irq]` and decode. -/
def Plic.get_priority (B : Nat) (s : PlicState) (interrupt : Nr) :
    Except String (Priority B) :=
  Priority.from_bits B (s.priority interrupt.index)

/-- `Plic::set_priority`: write the encoded priority to `priority[irq]`. -/
def Plic.set_priority (B : Nat) (s : PlicState) (interrupt : Nr)
    (prio : Priority B) : PlicState :=
  { s with priority := updNat s.priority interrupt.index prio.into_bits }

/-- `Plic::get_threshold`: read the context's threshold word and decode. -/
def Plic.get_threshold (B : Nat) (s : PlicState) (context : Nat) :
    Except String (Priority B) :=
  Priority.from_bits B (s.threshold context)

/-- `Plic::set_threshold`: write the encoded priority to the context's
threshold word. -/
def Plic.set_threshold (B : Nat) (s : PlicState) (context : Nat)
    (t : Priority B) : PlicState :=
  { s with threshold := updNat s.threshold context t.into_bits }

/-- `Plic::claim`: read the context's claim register and decode it with
`<Nr as TryFrom<u32>>::try_from(bits).ok()`. -/
def Plic.claim (s : PlicState) (context : Nat) : Option Nr :=
  Nr.tryFromU32 (s.claimReg context)

/-- `Plic::complete`: write the interrupt number back to the context's
claim register. -/
def Plic.complete (s : PlicState) (context : Nat) (interrupt : Nr) : PlicState :=
  { s with claimReg := updNat s.claimReg context interrupt.index }

/-- `Plic::is_pending`: read the pending word `irq / 32` and test bit
`irq % 32`. -/
def Plic.is_pending (s : PlicState) (interrupt : Nr) : Bool :=
  let irq := interrupt.index
  (s.pending (irq / 32) &&& (1 <<< (irq % 32))) != 0

/-- A register state in which every register of each file holds the given
constant value; used to build concrete test states. -/
def constPlicState (p pend en th cl : Nat) : PlicState :=
  ⟨fun _ => p, fun _ => pend, fun _ _ => en, fun _ => th, fun _ => cl⟩

/-- The interrupt source number 5, as a validated `Nr`. -/
def nr5 : Nr := ⟨5, by decide, by decide⟩

/-! ## Claims C3, C4, C5: the value-type constructors -/

/-- C3 (status: code_bug).  The claim says constructing an `Nr` from any
`v > 1023` fails, and that construction never yields an `Nr` outside
`1..=1023`; the Rust type's own doc comment agrees ("Valid number range
are from 1..=1023").  But both `TryFrom` impls only reject `0` (and, for
`u32`, values not fitting `u16`): at the failing input `v = 1024` both
conversions succeed and yield an `Nr` carrying `1024`. -/
theorem nr_tryFrom_accepts_1024 :
    (Nr.tryFromU16 1024 (by decide)).map Nr.val = some 1024 ∧
    (Nr.tryFromU32 1024).map Nr.val = some 1024 := by
  exact ⟨rfl, rfl⟩

/-- C4 (status: code_bug).  The claim (and the Rust struct's own doc
comment, "if B = 3, highest priority would be 7 or 2^3 - 1") says
`Priority::<B>::highest()` is `2^B - 1` for `B < 32`.  The code computes
`(2 << B) - 1 = 2^(B+1) - 1`: at the failing input `B = 3` it returns
`15`, not `7`.  (The `B = 32` branch does return `u32::MAX` as claimed.) -/
theorem priority_highest_at_3 :
    (Priority.highest 3).bits = 15 ∧ (Priority.highest 32).bits = 4294967295 := by
  exact ⟨rfl, rfl⟩

/-- C5 (status: code_bug).  The claim says `Priority::<B>::from_bits` must
abort for every raw value `> 2^B - 1` when `B < 32`, in particular on
`2^B`.  The code tests `prio < (2 << B)`, i.e. accepts everything below
`2^(B+1)`: at the failing input `B = 3`, `raw = 8 = 2^3`, decoding
succeeds instead of aborting. -/
theorem priority_from_bits_accepts_8 :
    Priority.from_bits 3 8 = Except.ok ⟨8⟩ ∧
    Priority.from_bits 3 16 = Except.error "invalid priority" := by
  exact ⟨rfl, rfl⟩

/-! ## Claim C6: decoding the claim register -/

/-- C6, counterexample: a nonzero claim-register value that does not fit in
16 bits decodes to `None`, refuting "Some(source) … for every nonzero value
read".  At the concrete state whose claim register reads `65536`,
`Plic::claim` returns `None` although the value read is nonzero. -/
theorem claim_nonzero_decodes_none :
    Plic.claim (constPlicState 0 0 0 0 65536) 0 = none ∧
    (constPlicState 0 0 0 0 65536).claimReg 0 ≠ 0 := by
  exact ⟨rfl, by decide⟩

/-- C6 as amended: `claim(c)` returns `None` exactly when the value read
from the context's claim register is `0` or does not fit in 16 bits
(`≥ 65536`), and any `Some(source)` it returns carries exactly the value
read. -/
theorem claim_decode (s : PlicState) (c : Nat) :
    (Plic.claim s c = none ↔ (s.claimReg c = 0 ∨ 65536 ≤ s.claimReg c)) ∧
    (∀ n : Nr, Plic.claim s c = some n → n.val = s.claimReg c) := by
  unfold Plic.claim Nr.tryFromU32
  constructor
  · constructor
    · intro hnone
      by_contra hcon
      push_neg at hcon
      have h1 : 0 < s.claimReg c := Nat.pos_of_ne_zero hcon.1
      have h2 : s.claimReg c < 65536 := hcon.2
      rw [dif_pos h2, dif_pos h1] at hnone
      exact Option.noConfusion hnone
    · intro hcase
      rcases hcase with h0 | hge
      · by_cases hl : s.claimReg c < 65536
        · rw [dif_pos hl, dif_neg (by omega)]
        · rw [dif_neg hl]
      · rw [dif_neg (by omega)]
  · intro n hn
    by_cases hl : s.claimReg c < 65536
    · by_cases hp : 0 < s.claimReg c
      · rw [dif_pos hl, dif_pos hp] at hn
        injection hn with h3
        rw [← h3]
      · rw [dif_pos hl, dif_neg hp] at hn
        exact Option.noConfusion hn
    · rw [dif_neg hl] at hn
      exact Option.noConfusion hn

/-- C6, witness: instantiating `claim_decode` at a state whose claim
register reads `5` (a `Some` is returned carrying `5`) and at one reading
`0` (a `None` is returned). -/
theorem claim_decode_witness :
    Nr.val ⟨5, by decide, by decide⟩ = (constPlicState 0 0 0 0 5).claimReg 0 ∧
    Plic.claim (constPlicState 0 0 0 0 0) 0 = none := by
  exact ⟨(claim_decode (constPlicState 0 0 0 0 5) 0).2 ⟨5, by decide, by decide⟩ rfl,
    (claim_decode (constPlicState 0 0 0 0 0) 0).1.mpr (Or.inl rfl)⟩

/-! ## Claim C7: round-trip of valid interrupt numbers -/

/-- C7 (status: confirmed).  For every `v` in `1..=1023`, all three
fallible conversions succeed and yield the same `Nr`, and all three numeric
conversions out of that `Nr` give back `v`. -/
theorem nr_roundtrip (v : Nat) (h1 : 1 ≤ v) (h2 : v ≤ 1023) :
    ∃ n : Nr, Nr.tryFromU16 v (by omega) = some n ∧ Nr.tryFromU32 v = some n ∧
      Nr.tryFromUsize v = some n ∧ n.toU16 = v ∧ n.toU32 = v ∧ n.toUsize = v := by
  have hlt : v < 65536 := by omega
  have hp : 0 < v := h1
  refine ⟨⟨v, hp, hlt⟩, ?_, ?_, ?_, rfl, rfl, rfl⟩
  · unfold Nr.tryFromU16; rw [dif_pos hp]
  · unfold Nr.tryFromU32; rw [dif_pos hlt, dif_pos hp]
  · unfold Nr.tryFromUsize; rw [dif_pos hlt, dif_pos hp]

/-- C7, witness: the round-trip at `v = 5`. -/
theorem nr_roundtrip_witness :
    ∃ n : Nr, Nr.tryFromU16 5 (by decide) = some n ∧ Nr.tryFromU32 5 = some n ∧
      Nr.tryFromUsize 5 = some n ∧ n.toU16 = 5 ∧ n.toU32 = 5 ∧ n.toUsize = 5 := by
  exact nr_roundtrip 5 (by decide) (by decide)

/-! ## Bit-manipulation helper lemmas for the enable bitmap -/

/-- The enable-bit test `v & (1 << k) != 0` is `testBit`. -/
theorem and_one_shiftLeft_bne (v k : Nat) :
    ((v &&& (1 <<< k)) != 0) = v.testBit k := by
  rw [Nat.one_shiftLeft, Nat.and_two_pow]
  cases h : v.testBit k
  · simp
  · have hp : (2 : Nat) ^ k ≠ 0 := by positivity
    simp [hp]

/-- Every bit below 32 of the `u32` complement mask base `0xFFFFFFFF`. -/
theorem testBit_u32_max (j : Nat) (hj : j < 32) :
    (4294967295 : Nat).testBit j = true := by
  have h32 : (4294967295 : Nat) = 2 ^ 32 - 1 := by norm_num
  rw [h32, Nat.testBit_two_pow_sub_one]
  simpa using hj

/-- Setting bit `k` of a word (`v | 1 << k`) makes bit `k` read back set,
and leaves every other bit of the word unchanged. -/
theorem testBit_set_bit (v k j : Nat) :
    ((v ||| (1 <<< k)).testBit k = true) ∧
    (j ≠ k → (v ||| (1 <<< k)).testBit j = v.testBit j) := by
  constructor
  · rw [Nat.testBit_lor, Nat.one_shiftLeft, Nat.testBit_two_pow_self]
    simp
  · intro hj
    rw [Nat.testBit_lor, Nat.one_shiftLeft, Nat.testBit_two_pow_of_ne (by omega)]
    simp

/-- Clearing bit `k` of a word (`v & !(1 << k)`, with the complement taken
in `u32`) makes bit `k` read back clear, and leaves every other bit below
32 unchanged. -/
theorem testBit_clear_bit (v k j : Nat) (hk : k < 32) :
    ((v &&& (4294967295 ^^^ (1 <<< k))).testBit k = false) ∧
    (j < 32 → j ≠ k → (v &&& (4294967295 ^^^ (1 <<< k))).testBit j = v.testBit j) := by
  constructor
  · rw [Nat.testBit_land, Nat.testBit_xor, Nat.one_shiftLeft,
      Nat.testBit_two_pow_self, testBit_u32_max k hk]
    simp
  · intro hj hjk
    rw [Nat.testBit_land, Nat.testBit_xor, Nat.one_shiftLeft,
      Nat.testBit_two_pow_of_ne (by omega), testBit_u32_max j hj]
    simp

/-! ## Claim C8: mask / unmask versus is_enabled -/

/-- C8 (status: confirmed).  For any register state, context and valid
source, after `mask(c, s)` the enable-bit read `is_enabled(c, s)` is
`false`, and after `unmask(c, s)` it is `true`. -/
theorem mask_unmask_enable (s : PlicState) (c : Nat) (n : Nr)
    (_hvalid : n.val ≤ 1023) :
    Plic.is_enabled (Plic.mask s c n) c n = false ∧
    Plic.is_enabled (Plic.unmask s c n) c n = true := by
  have hk : n.val % 32 < 32 := Nat.mod_lt _ (by decide)
  constructor
  · unfold Plic.is_enabled Plic.mask
    simp only [updNat2, Nr.index, and_true, if_pos rfl]
    rw [and_one_shiftLeft_bne]
    exact (testBit_clear_bit _ _ 0 hk).1
  · unfold Plic.is_enabled Plic.unmask
    simp only [updNat2, Nr.index, and_true, if_pos rfl]
    rw [and_one_shiftLeft_bne]
    exact (testBit_set_bit _ _ 0).1

/-- C8, witness: at a concrete state whose enable words read all-ones,
masking source 5 for context 0 disables it; at the all-zero state,
unmasking enables it. -/
theorem mask_unmask_enable_witness :
    Plic.is_enabled (Plic.mask (constPlicState 0 0 4294967295 0 0) 0 nr5) 0 nr5 = false ∧
    Plic.is_enabled (Plic.unmask (constPlicState 0 0 0 0 0) 0 nr5) 0 nr5 = true := by
  exact ⟨(mask_unmask_enable (constPlicState 0 0 4294967295 0 0) 0 nr5 (by decide)).1,
    (mask_unmask_enable (constPlicState 0 0 0 0 0) 0 nr5 (by decide)).2⟩

/-! ## Claim C10: unmask / mask touch only one enable bit -/

/-- C10 (status: confirmed).  `unmask(c, s)` and `mask(c, s)` are
read-modify-writes of the single enable word `s / 32` of context `c`:
every other enable word of every context is unchanged, every bit of the
written word other than bit `s % 32` is unchanged, and the priority,
pending, threshold and claim registers are all unchanged. -/
theorem unmask_mask_frame (s : PlicState) (c : Nat) (n : Nr)
    (_hvalid : n.val ≤ 1023) :
    (∀ c2 w, ¬(c2 = c ∧ w = n.val / 32) →
      (Plic.unmask s c n).enables c2 w = s.enables c2 w ∧
      (Plic.mask s c n).enables c2 w = s.enables c2 w) ∧
    (∀ j, j < 32 → j ≠ n.val % 32 →
      ((Plic.unmask s c n).enables c (n.val / 32)).testBit j =
        (s.enables c (n.val / 32)).testBit j ∧
      ((Plic.mask s c n).enables c (n.val / 32)).testBit j =
        (s.enables c (n.val / 32)).testBit j) ∧
    (Plic.unmask s c n).priority = s.priority ∧
    (Plic.mask s c n).priority = s.priority ∧
    (Plic.unmask s c n).pending = s.pending ∧
    (Plic.mask s c n).pending = s.pending ∧
    (Plic.unmask s c n).threshold = s.threshold ∧
    (Plic.mask s c n).threshold = s.threshold ∧
    (Plic.unmask s c n).claimReg = s.claimReg ∧
    (Plic.mask s c n).claimReg = s.claimReg := by
  have hk : n.val % 32 < 32 := Nat.mod_lt _ (by decide)
  refine ⟨?_, ?_, rfl, rfl, rfl, rfl, rfl, rfl, rfl, rfl⟩
  · intro c2 w hne
    constructor
    · unfold Plic.unmask
      simp only [updNat2, Nr.index]
      rw [if_neg hne]
    · unfold Plic.mask
      simp only [updNat2, Nr.index]
      rw [if_neg hne]
  · intro j hj hjk
    constructor
    · unfold Plic.unmask
      simp only [updNat2, Nr.index, and_true, if_pos rfl]
      exact (testBit_set_bit _ _ j).2 hjk
    · unfold Plic.mask
      simp only [updNat2, Nr.index, and_true, if_pos rfl]
      exact (testBit_clear_bit _ _ j hk).2 hj hjk

/-- C10, witness: instantiating the frame theorem for source 5 on
context 0 — the enable word of context 1 is untouched, bit 6 of the
written word is untouched by `mask`, and `unmask` leaves thresholds
alone. -/
theorem unmask_mask_frame_witness :
    (Plic.unmask (constPlicState 1 2 3 4 5) 0 nr5).enables 1 0 =
      (constPlicState 1 2 3 4 5).enables 1 0 ∧
    ((Plic.mask (constPlicState 1 2 3 4 5) 0 nr5).enables 0 (5 / 32)).testBit 6 =
      ((constPlicState 1 2 3 4 5).enables 0 (5 / 32)).testBit 6 ∧
    (Plic.unmask (constPlicState 1 2 3 4 5) 0 nr5).threshold =
      (constPlicState 1 2 3 4 5).threshold := by
  exact ⟨((unmask_mask_frame (constPlicState 1 2 3 4 5) 0 nr5 (by decide)).1 1 0
      (by decide)).1,
    ((unmask_mask_frame (constPlicState 1 2 3 4 5) 0 nr5 (by decide)).2.1 6
      (by decide) (by decide)).2,
    (unmask_mask_frame (constPlicState 1 2 3 4 5) 0 nr5 (by decide)).2.2.2.2.2.2.1⟩

/-! ## The generated trap handler (src/plic-rt/src/lib.rs, lines 122-151)

`gen_once_trap_handler` emits the single `MachineExternal` trap entry:

```
let threshold = pac::PLIC::get_threshold(hart_id);
let irq = pac::PLIC::claim(hart_id).unwrap();
let prio = pac::PLIC::get_priority(irq);
unsafe { pac::PLIC::set_threshold(hart_id, prio); mie::clear_msoft(); mie::clear_mtimer(); }
unsafe { (pac::__INTERRUPTS[irq as usize].handler)() };
unsafe { mie::set_mtimer(); mie::set_msoft(); pac::PLIC::set_threshold(hart_id, threshold); }
pac::PLIC::complete(hart_id, irq);
```

The embedding threads a machine state (PLIC registers plus the two `mie`
bits the handler toggles) through this straight line, records every PLIC
register access in an event trace, and models the user handler from the
`__INTERRUPTS` table as an arbitrary state transformer indexed by the
claimed source (the registry is an external collaborator).  The `mie`
accesses are state updates, not traced events.  `.unwrap()` on a `None`
claim and the `panic!` inside the two priority decodes surface as
`Except.error`. -/

/-- Machine state seen by the generated trap handler. -/
structure MachineState where
  plic : PlicState
  mieMsoft : Bool
  mieMtimer : Bool

/-- One PLIC register access performed by the generated trap handler. -/
inductive PlicEvent where
  | thresholdRead (v : Nat)
  | claimRead (v : Nat)
  | priorityRead (irq v : Nat)
  | thresholdWrite (v : Nat)
  | handlerInvoked (irq : Nat)
  | completeWrite (irq : Nat)

/-- The body of the generated `MachineExternal` handler, one Rust
statement per step. -/
def machineExternalHandler (B : Nat) (handlers : Nat → MachineState → MachineState)
    (hartId : Nat) (m : MachineState) : Except String (MachineState × List PlicEvent) :=
  match Plic.get_threshold B m.plic hartId with
  | Except.error e => Except.error e
  | Except.ok threshold =>
    match Plic.claim m.plic hartId with
    | none => Except.error "called Option::unwrap on a None value"
    | some irq =>
      match Plic.get_priority B m.plic irq with
      | Except.error e => Except.error e
      | Except.ok prio =>
        let m1 : MachineState :=
          { plic := Plic.set_threshold B m.plic hartId prio,
            mieMsoft := false, mieMtimer := false }
        let m2 := handlers irq.index m1
        let m3 : MachineState :=
          { plic := Plic.set_threshold B m2.plic hartId threshold,
            mieMsoft := true, mieMtimer := true }
        let m4 : MachineState := { m3 with plic := Plic.complete m3.plic hartId irq }
        Except.ok (m4,
          [PlicEvent.thresholdRead (m.plic.threshold hartId),
           PlicEvent.claimRead (m.plic.claimReg hartId),
           PlicEvent.priorityRead irq.index (m.plic.priority irq.index),
           PlicEvent.thresholdWrite prio.into_bits,
           PlicEvent.handlerInvoked irq.index,
           PlicEvent.thresholdWrite threshold.into_bits,
           PlicEvent.completeWrite irq.index])

/-- `Priority::from_bits` succeeds on every raw value it accepts. -/
theorem from_bits_ok (B prio : Nat) (h : B = 32 ∨ prio < 2 <<< B) :
    Priority.from_bits B prio = Except.ok ⟨prio⟩ := by
  unfold Priority.from_bits
  rcases h with h | h
  · rw [if_pos h]
  · by_cases hb : B = 32
    · rw [if_pos hb]
    · rw [if_neg hb, if_pos h]

/-! ## Claim C1: the dispatch cycle of the generated trap handler -/

/-- C1 (status: confirmed).  On a hardware trap in which `claim` yields a
source (the claim register reads a valid source id `1..=1023`, and the
threshold and priority registers hold decodable values, as they do on
conforming hardware), the generated handler performs exactly the access
sequence: read (save) the current threshold, claim, read the claimed
source's configured priority, write that priority to the threshold, invoke
the handler, write the saved threshold back, and only then write the
complete register — and the final state has the threshold restored to its
saved value and the claimed source written to the claim/complete
register. -/
theorem dispatch_cycle (B : Nat) (handlers : Nat → MachineState → MachineState)
    (hart : Nat) (m : MachineState)
    (hth : B = 32 ∨ m.plic.threshold hart < 2 <<< B)
    (hc1 : 0 < m.plic.claimReg hart) (hc2 : m.plic.claimReg hart ≤ 1023)
    (hpr : B = 32 ∨ m.plic.priority (m.plic.claimReg hart) < 2 <<< B) :
    ∃ mf : MachineState,
      machineExternalHandler B handlers hart m = Except.ok (mf,
        [PlicEvent.thresholdRead (m.plic.threshold hart),
         PlicEvent.claimRead (m.plic.claimReg hart),
         PlicEvent.priorityRead (m.plic.claimReg hart)
           (m.plic.priority (m.plic.claimReg hart)),
         PlicEvent.thresholdWrite (m.plic.priority (m.plic.claimReg hart)),
         PlicEvent.handlerInvoked (m.plic.claimReg hart),
         PlicEvent.thresholdWrite (m.plic.threshold hart),
         PlicEvent.completeWrite (m.plic.claimReg hart)]) ∧
      mf.plic.threshold hart = m.plic.threshold hart ∧
      mf.plic.claimReg hart = m.plic.claimReg hart := by
  have hc65536 : m.plic.claimReg hart < 65536 := by omega
  have hclaim : Plic.claim m.plic hart =
      some ⟨m.plic.claimReg hart, hc1, hc65536⟩ := by
    unfold Plic.claim Nr.tryFromU32
    rw [dif_pos hc65536, dif_pos hc1]
  have hthr : Plic.get_threshold B m.plic hart =
      Except.ok ⟨m.plic.threshold hart⟩ := from_bits_ok B _ hth
  have hpri : Plic.get_priority B m.plic ⟨m.plic.claimReg hart, hc1, hc65536⟩ =
      Except.ok ⟨m.plic.priority (m.plic.claimReg hart)⟩ := from_bits_ok B _ hpr
  unfold machineExternalHandler
  simp only [hthr, hclaim, hpri]
  refine ⟨_, rfl, ?_, ?_⟩
  · simp [Plic.complete, Plic.set_threshold, updNat, Priority.into_bits]
  · simp [Plic.complete, Plic.set_threshold, updNat, Nr.index]

/-- A concrete machine state whose claim register reads source 5,
whose priority registers read 3, and whose thresholds read 0. -/
def machinePending5 : MachineState :=
  ⟨constPlicState 3 0 0 0 5, true, true⟩

/-- C1, witness: the dispatch cycle on `machinePending5` with `B = 3`,
hart 0 and a user handler that leaves the machine state alone. -/
theorem dispatch_cycle_witness :
    ∃ mf : MachineState,
      machineExternalHandler 3 (fun _ m2 => m2) 0 machinePending5 = Except.ok (mf,
        [PlicEvent.thresholdRead 0, PlicEvent.claimRead 5,
         PlicEvent.priorityRead 5 3, PlicEvent.thresholdWrite 3,
         PlicEvent.handlerInvoked 5, PlicEvent.thresholdWrite 0,
         PlicEvent.completeWrite 5]) ∧
      mf.plic.threshold 0 = 0 ∧ mf.plic.claimReg 0 = 5 := by
  exact dispatch_cycle 3 (fun _ m2 => m2) 0 machinePending5
    (Or.inr (by decide)) (by decide) (by decide) (Or.inr (by decide))

/-! ## Claim C2: a spurious claim -/

/-- A machine state whose claim register reads 0: no interrupt pending. -/
def machineSpurious : MachineState :=
  ⟨constPlicState 0 0 0 0 0, true, true⟩

/-- C2 (status: code_bug).  The claim (and the specification) says a
`None` from `claim` is spurious and the handler must return with no
further action.  The generated handler instead calls `.unwrap()` on the
claim result: at the failing input — a trap with the claim register
reading `0` — it panics (modelled as `Except.error`) rather than
returning. -/
theorem spurious_claim_panics :
    machineExternalHandler 3 (fun _ m2 => m2) 0 machineSpurious =
      Except.error "called Option::unwrap on a None value" := by
  exact rfl

/-! ## Claim C9: the claim/complete handshake of the controller -/

/-- Pointwise update of a per-source flag file. -/
def updBool (f : Nat → Bool) (i : Nat) (v : Bool) : Nat → Bool :=
  fun j => if j = i then v else f j

/-- Modelled from the spec: the PLIC controller hardware behind the claim
and complete registers.  The driver under `src/` only reads and writes
those registers (`Plic::claim` / `Plic::complete`); the controller logic
that the handshake property is about — "this read also implicitly marks
the source as no longer pending", "a source claimed but not completed
remains un-re-triggerable even if its physical condition recurs",
"`complete` … re-arming it as eligible to pend again" (spec §4.2), tested
on "a simulated controller" (spec §8) — is hardware and is not code of
the repository.  `pending` is the latched pending bit, `inService` the
claimed-but-not-completed gate per source, and `priority`, `enabled`,
`threshold` the configuration the controller consults when offering a
source. -/
structure SimPlic where
  pending : Nat → Bool
  inService : Nat → Bool
  priority : Nat → Nat
  enabled : Nat → Nat → Bool
  threshold : Nat → Nat

/-- Modelled from the spec: a source is claimable by context `c` when it
is a real source id, latched pending, enabled for `c`, not already in
service, and its priority exceeds the context's threshold. -/
def SimPlic.claimable (st : SimPlic) (c s : Nat) : Bool :=
  decide (1 ≤ s) && st.pending s && st.enabled c s && !(st.inService s) &&
    decide (st.threshold c < st.priority s)

/-- Modelled from the spec: a read of the claim register.  Some claimable
source (the model picks the lowest-numbered one; the spec does not fix the
selection and the handshake property does not depend on it) is returned,
its pending bit cleared and its in-service gate closed; with no claimable
source the read returns 0, i.e. `none`. -/
def SimPlic.claimOp (st : SimPlic) (c : Nat) : Option Nat × SimPlic :=
  match (List.range 1024).find? (st.claimable c) with
  | some s =>
    let st2 : SimPlic :=
      { st with
          pending := updBool st.pending s false,
          inService := updBool st.inService s true }
    (some s, st2)
  | none => (none, st)

/-- Modelled from the spec: the physical pending condition of source `s`
recurs.  The gateway latches it only if the source is not held by an
uncompleted claim. -/
def SimPlic.trigger (st : SimPlic) (s : Nat) : SimPlic :=
  if st.inService s then st
  else { st with pending := updBool st.pending s true }

/-- Modelled from the spec: a write of source `s` to the claim/complete
register re-arms the source as eligible to pend again. -/
def SimPlic.completeOp (st : SimPlic) (_c s : Nat) : SimPlic :=
  { st with inService := updBool st.inService s false }

/-- A successful claim returns a claimable source and closes its gate. -/
theorem claimOp_some_claimable (st : SimPlic) (c s : Nat) (st2 : SimPlic)
    (h : st.claimOp c = (some s, st2)) :
    st.claimable c s = true ∧ st2.inService s = true := by
  unfold SimPlic.claimOp at h
  cases hf : (List.range 1024).find? (st.claimable c) with
  | none =>
    rw [hf] at h
    exact absurd (congrArg Prod.fst h) (by simp)
  | some a =>
    rw [hf] at h
    simp only [Prod.mk.injEq, Option.some.injEq] at h
    obtain ⟨h1, h2⟩ := h
    subst h1
    refine ⟨List.find?_some hf, ?_⟩
    rw [← h2]
    simp [updBool]

/-- C9 (status: confirmed, against the spec-modelled controller).  If a
claim on context `c` yields source `s`, then a second claim on `c` issued
before `complete(c, s)` does not yield `s` again — also after the physical
pending condition of `s` recurs in between. -/
theorem claim_handshake (st st2 : SimPlic) (c s : Nat)
    (h : st.claimOp c = (some s, st2)) :
    (st2.claimOp c).1 ≠ some s ∧ ((st2.trigger s).claimOp c).1 ≠ some s := by
  obtain ⟨_hcl, hin⟩ := claimOp_some_claimable st c s st2 h
  have htr : st2.trigger s = st2 := by
    unfold SimPlic.trigger
    rw [if_pos hin]
  have hmain : (st2.claimOp c).1 ≠ some s := by
    intro hcon
    unfold SimPlic.claimOp at hcon
    cases hf : (List.range 1024).find? (st2.claimable c) with
    | none =>
      rw [hf] at hcon
      exact Option.noConfusion hcon
    | some a =>
      rw [hf] at hcon
      simp only [Option.some.injEq] at hcon
      subst hcon
      have hcl2 := List.find?_some hf
      simp [SimPlic.claimable, hin] at hcl2
  rw [htr]
  exact ⟨hmain, hmain⟩

/-- A simulated controller with exactly source 5 pending, all sources
enabled for every context, priority 1 everywhere and threshold 0. -/
def simPending5 : SimPlic :=
  ⟨fun s => s == 5, fun _ => false, fun _ => 1, fun _ _ => true, fun _ => 0⟩

set_option maxRecDepth 10000 in
/-- C9, witness: on `simPending5`, context 0 claims source 5; before the
completion, neither an immediate re-claim nor a re-claim after the
physical condition of source 5 recurs yields source 5 again. -/
theorem claim_handshake_witness :
    (((simPending5.claimOp 0).2).claimOp 0).1 ≠ some 5 ∧
    ((((simPending5.claimOp 0).2).trigger 5).claimOp 0).1 ≠ some 5 := by
  exact claim_handshake simPending5 (simPending5.claimOp 0).2 0 5 (by rfl)
